import Mathlib

/-!
Verification development for the quantitative trading-signal engine of this
repository: rolling indicators (SMA, Bollinger bands, ATR), signal
generation, option-contract selection, the trailing-stop position state
machine of the backtest, and the live position manager.

Prices and monetary amounts are embedded as rationals (the source works on
JavaScript numbers); the single genuinely real-valued operation, the
Bollinger standard deviation obtained through Math.sqrt, is abstracted as an
explicit square-root parameter so that every definition stays computable.
JavaScript NaN markers for not-yet-defined indicator values are embedded as
Option (none = NaN); invalid Date values are likewise embedded with Option.
-/

/-- Side of a signal, mirroring the string union long | short of the source. -/
inductive Side where
  | long
  | short
deriving DecidableEq

/-- Signal kind, mirroring the string union BB_reversal | breakout. -/
inductive SignalType where
  | BB_reversal
  | breakout
deriving DecidableEq

/-- Embeds the DailyBar interface of strategy_v2 (src/unnamed/part_001).
Dates are embedded as integer day keys; fields hold exactly the ten fields
of the source interface, with the keyword clash on open resolved by a prime. -/
structure DailyBar where
  date : ℤ
  open' : ℚ
  high : ℚ
  low : ℚ
  close : ℚ
  sma : ℚ
  bbMid : ℚ
  bbUpper : ℚ
  bbLower : ℚ
  atr : ℚ
deriving DecidableEq

instance : Inhabited DailyBar := ⟨⟨0, 0, 0, 0, 0, 0, 0, 0, 0, 0⟩⟩

/-- Embeds the Signal interface of strategy_v2: {index, date, side, type}. -/
structure Signal where
  index : ℕ
  date : ℤ
  side : Side
  type : SignalType
deriving DecidableEq

/-- Trailing-window sum of the source loops: sum of xs[j] for
j = i - p + 1 .. i, the inner loops of computeIndicators. Out-of-range
reads default to 0; the source only evaluates this with the window in range. -/
def windowSum (xs : List ℚ) (i p : ℕ) : ℚ :=
  ((List.range p).map (fun j => xs.getD (i + 1 - p + j) 0)).sum

/-- Sum of squared deviations from the trailing mean over the same window,
the variance accumulation loop of computeIndicators (diff * diff summed). -/
def windowVarSum (xs : List ℚ) (i p : ℕ) : ℚ :=
  ((List.range p).map (fun j =>
    (xs.getD (i + 1 - p + j) 0 - windowSum xs i p / p) *
    (xs.getD (i + 1 - p + j) 0 - windowSum xs i p / p))).sum

/-- Embeds the SMA loop of computeIndicators: NaN (none) while
i < smaPeriod - 1, afterwards the trailing mean of the closes. -/
def smaArr (closes : List ℚ) (p : ℕ) : List (Option ℚ) :=
  (List.range closes.length).map fun i =>
    if i < p - 1 then none else some (windowSum closes i p / p)

/-- Embeds the Bollinger loop of computeIndicators: NaN (none) while
i < bbPeriod - 1, afterwards (mid, upper, lower) with
std = sqrtQ (variance / period), Math.sqrt abstracted as sqrtQ. -/
def bbArr (closes : List ℚ) (p : ℕ) (sqrtQ : ℚ → ℚ) : List (Option (ℚ × ℚ × ℚ)) :=
  (List.range closes.length).map fun i =>
    if i < p - 1 then none
    else
      let mean := windowSum closes i p / p
      let std := sqrtQ (windowVarSum closes i p / p)
      some (mean, mean + 2 * std, mean - 2 * std)

/-- Embeds the true-range loop of computeIndicators: NaN (none) at i = 0,
afterwards max(high-low, |high-prevClose|, |low-prevClose|). -/
def trueRanges (highs lows closes : List ℚ) : List (Option ℚ) :=
  (List.range highs.length).map fun i =>
    if i = 0 then none
    else
      some (max (highs.getD i 0 - lows.getD i 0)
        (max |highs.getD i 0 - closes.getD (i - 1) 0|
             |lows.getD i 0 - closes.getD (i - 1) 0|))

/-- Trailing sum of raw true-range entries, the ATR accumulation loop; the
source adds the float values directly, none (NaN) entries read as 0 but are
never inside a summed window in computeIndicators. -/
def trWindowSum (trs : List (Option ℚ)) (i p : ℕ) : ℚ :=
  ((List.range p).map (fun j => (trs.getD (i + 1 - p + j) none).getD 0)).sum

/-- Embeds the ATR loop of computeIndicators: NaN (none) while i < atrPeriod,
afterwards the trailing mean of the true ranges. -/
def atrArr (trs : List (Option ℚ)) (p : ℕ) : List (Option ℚ) :=
  (List.range trs.length).map fun i =>
    if i < p then none
    else some (trWindowSum trs i p / p)

/-- Forward-fill of the final assignment loop of computeIndicators: a running
last-defined value, initialised to 0, replaces NaN (none) entries. The
source keeps one accumulator per indicator inside a single map; bbMid,
bbUpper and bbLower are defined at exactly the same indices, so filling each
stream separately is the same assignment. -/
def ffill (last : ℚ) : List (Option ℚ) → List ℚ
  | [] => []
  | x :: xs => x.getD last :: ffill (x.getD last) xs

/-- Embeds computeIndicators of strategy_v2 (src/unnamed/part_001 lines
663-748): computes the SMA, Bollinger and ATR streams over the closes,
highs and lows, and writes them back onto the bars with the forward-fill
(backfill NaNs) policy of the final map. Math.sqrt is passed as sqrtQ. -/
def computeIndicators (sqrtQ : ℚ → ℚ) (bbPeriod smaPeriod atrPeriod : ℕ)
    (daily : List DailyBar) : List DailyBar :=
  let closes := daily.map (·.close)
  let highs := daily.map (·.high)
  let lows := daily.map (·.low)
  let smaF := ffill 0 (smaArr closes smaPeriod)
  let bbs := bbArr closes bbPeriod sqrtQ
  let bbMidF := ffill 0 (bbs.map (Option.map (·.1)))
  let bbUpperF := ffill 0 (bbs.map (Option.map (·.2.1)))
  let bbLowerF := ffill 0 (bbs.map (Option.map (·.2.2)))
  let atrF := ffill 0 (atrArr (trueRanges highs lows closes) atrPeriod)
  daily.enum.map fun q =>
    { q.2 with
      sma := smaF.getD q.1 0
      bbMid := bbMidF.getD q.1 0
      bbUpper := bbUpperF.getD q.1 0
      bbLower := bbLowerF.getD q.1 0
      atr := atrF.getD q.1 0 }

/-- Embeds the loop body of generateSignals (src/unnamed/part_001 lines
754-783) at index i: the Bollinger-reversal if/else-if, then the two
trend-filtered breakout checks, with threshold 0.3 = 3/10. -/
def signalsAt (daily : List DailyBar) (i : ℕ) : List Signal :=
  let d := daily.getD i default
  let prev := daily.getD (i - 1) default
  let threshold : ℚ := 3 / 10
  let bb : List Signal :=
    if d.close < d.bbLower then [⟨i, d.date, Side.long, SignalType.BB_reversal⟩]
    else if d.bbUpper < d.close then [⟨i, d.date, Side.short, SignalType.BB_reversal⟩]
    else []
  let bLong : List Signal :=
    if prev.close + threshold * d.atr < d.close ∧ d.sma < d.close ∧ prev.sma < d.sma then
      [⟨i, d.date, Side.long, SignalType.breakout⟩]
    else []
  let bShort : List Signal :=
    if d.close < prev.close - threshold * d.atr ∧ d.close < d.sma ∧ d.sma < prev.sma then
      [⟨i, d.date, Side.short, SignalType.breakout⟩]
    else []
  bb ++ bLong ++ bShort

/-- Embeds generateSignals: the for-loop from i = 1 to daily.length - 1
collecting the signals of each bar in order. -/
def generateSignals (daily : List DailyBar) : List Signal :=
  (List.range' 1 (daily.length - 1)).flatMap (signalsAt daily)

/-- Embeds the OptionRow interface of strategy_v2. Dates (date, expiryDt)
come from parseCsvDate which can return an Invalid Date; those are embedded
as Option ℤ with none for NaN dates. The raw expiry string is kept for the
row-matching of the backtest loop. -/
structure OptionRow where
  date : Option ℤ
  expiry : String
  expiryDt : Option ℤ
  type : String
  strike : ℚ
  ltp : ℚ
  low : ℚ
  high : ℚ
  oi : ℚ
  oiChange : ℚ
  contracts : ℚ
deriving DecidableEq

instance : Inhabited OptionRow := ⟨⟨none, "", none, "", 0, 0, 0, 0, 0, 0, 0⟩⟩

/-- Configuration constant STRIKE_STEP = 50 of strategy_v2. -/
def STRIKE_STEP : ℚ := 50

/-- Configuration constant LOT_SIZE = 75 of strategy_v2. -/
def LOT_SIZE : ℚ := 75

/-- Configuration constant START_CAPITAL = 15000 of strategy_v2. -/
def START_CAPITAL : ℚ := 15000

/-- Configuration constant ENTRY_BUFFER = 10 of strategy_v2. -/
def ENTRY_BUFFER : ℚ := 10

/-- Configuration constant RISK_PER_TRADE = 10 of strategy_v2. -/
def RISK_PER_TRADE : ℚ := 10

/-- JavaScript Math.round: round half toward positive infinity,
Math.round x = floor (x + 1/2). -/
def jsRound (x : ℚ) : ℤ := ⌊x + 1 / 2⌋

/-- Embeds the expiry filter predicate of selectContract:
!isNaN(row.expiryDt) && row.expiryDt >= tradeDate, where a comparison
against an Invalid Date (none) is false as in JavaScript. -/
def expiryNotBefore (e : Option ℤ) (t : Option ℤ) : Bool :=
  match e, t with
  | some ed, some td => decide (td ≤ ed)
  | _, _ => false

/-- Embeds the sort comparator of selectContract: expiry ascending, then
open interest descending, then contract count descending; rankLE a b holds
when the comparator orders a at or before b. Survivors of the expiry filter
always carry some expiry, so the none default is never compared. -/
def rankLE (a b : OptionRow) : Bool :=
  if a.expiryDt.getD 0 ≠ b.expiryDt.getD 0 then decide (a.expiryDt.getD 0 < b.expiryDt.getD 0)
  else if a.oi ≠ b.oi then decide (b.oi < a.oi)
  else decide (b.contracts ≤ a.contracts)

/-- The target-strike computation of selectContract (src/unnamed/part_001
lines 856-858): ATM = spot rounded (JavaScript Math.round) to the nearest
STRIKE_STEP, then one step above for long and one step below for short. -/
def selectTargetStrike (side : Side) (underlyingClose : ℚ) : ℚ :=
  let atm : ℚ := (jsRound (underlyingClose / STRIKE_STEP) : ℚ) * STRIKE_STEP
  if side = Side.long then atm + STRIKE_STEP else atm - STRIKE_STEP

/-- The type-and-strike filter of selectContract (line 861): keep exactly
the rows whose option type is CE (long) or PE (short) and whose strike is
the target strike. -/
def selectCandidates (snapshot : List OptionRow) (side : Side) (underlyingClose : ℚ) :
    List OptionRow :=
  snapshot.filter fun row =>
    decide (row.type = (if side = Side.long then "CE" else "PE")
      ∧ row.strike = selectTargetStrike side underlyingClose)

/-- The survivors after both filters of selectContract: the candidates of
the type-and-strike filter whose expiry is valid and not before the
snapshot date snapshot[0].date (lines 863-866). -/
def contractSurvivors (snapshot : List OptionRow) (side : Side) (underlyingClose : ℚ) :
    List OptionRow :=
  (selectCandidates snapshot side underlyingClose).filter fun row =>
    expiryNotBefore row.expiryDt ((snapshot.head?.map (·.date)).getD none)

/-- Embeds selectContract of strategy_v2 (src/unnamed/part_001 lines
855-876): ATM = spot rounded to the nearest STRIKE_STEP, target strike one
step above (long, CE) or below (short, PE), filter by type and strike,
discard expiries before the snapshot date (snapshot[0].date), sort by the
comparator and return the first survivor, or none. -/
def selectContract (snapshot : List OptionRow) (side : Side) (underlyingClose : ℚ) :
    Option OptionRow :=
  let candidates := selectCandidates snapshot side underlyingClose
  if candidates = [] then none
  else
    let tradeDate := (snapshot.head?.map (·.date)).getD none
    let candidates2 := candidates.filter fun row => expiryNotBefore row.expiryDt tradeDate
    if candidates2 = [] then none
    else (candidates2.mergeSort rankLE).head?

/-- Stop and target levels derived from one entry price, the risk unit and
the final risk-reward multiple; mirrors the four assignments of
backtestTrailing (entryLimit with RISK_PER_TRADE and finalRR) and of
LiveStrategyManager.enterPosition (entryPrice with config.riskPerTrade and
config.finalRR), which use identical formulas. -/
structure Levels where
  initialStop : ℚ
  target1 : ℚ
  trailingStop : ℚ
  finalTarget : ℚ
deriving DecidableEq

/-- The level computation shared by backtestTrailing lines 932-935 and
enterPosition lines 254-257: stop at entry - R, first target at entry + 3R,
trailing stop at entry + 2R, final target at entry + finalRR * R. Neither
call site flips any sign for the short side (a short signal buys a put). -/
def computeLevels (entryPrice riskPerTrade finalRR : ℚ) : Levels :=
  { initialStop := entryPrice - riskPerTrade
    target1 := entryPrice + riskPerTrade * 3
    trailingStop := entryPrice + riskPerTrade * 2
    finalTarget := entryPrice + riskPerTrade * finalRR }

/-- Exit reasons; the first five strings occur in the live manager
(stop_loss, trailing_stop, target, friday_exit, emergency_exit), the last
two (calendar_exit, max_holding_period) occur only in the specification and
the repository documentation and are included so that statements about them
can be written. In the backtest the tag records which branch produced the
exit price, since backtestTrailing stores no reason string. -/
inductive ExitReason where
  | stop_loss
  | trailing_stop
  | target
  | friday_exit
  | emergency_exit
  | calendar_exit
  | max_holding_period
deriving DecidableEq

/-- Per-day mutable state of the backtestTrailing scan: whether the 1:3
target was already hit and the stop level currently in force. -/
structure TrailState where
  hitTarget1 : Bool
  currentStop : ℚ
deriving DecidableEq

/-- Embeds one day of the backtestTrailing exit scan (day 0, lines 949-962,
and each following day, lines 982-995): first the final-target check, then
the tighten-to-trailing-stop update when the 1:3 target is reached, then
the stop check against the (possibly just tightened) current stop. On day 0
hitTarget1 starts false, so the missing !hitTarget1 guard of day 0 is the
same test. The returned reason tags which branch fired. -/
def backtestDayStep (L : Levels) (s : TrailState) (low high : ℚ) :
    Option (ℚ × ExitReason) × TrailState :=
  if L.finalTarget ≤ high then (some (L.finalTarget, ExitReason.target), s)
  else
    let s' : TrailState :=
      if ¬s.hitTarget1 ∧ L.target1 ≤ high then ⟨true, L.trailingStop⟩ else s
    if low ≤ s'.currentStop then
      (some (s'.currentStop,
        if s'.hitTarget1 then ExitReason.trailing_stop else ExitReason.stop_loss), s')
    else (none, s')

/-- Position status of the live manager: the string union
active | trailing | closed of LivePosition.status. -/
inductive PosStatus where
  | active
  | trailing
  | closed
deriving DecidableEq

/-- Embeds the LivePosition interface of strategy_v2_live.ts. The entry
date is an integer day key; currentPrice and profit are the two optional
fields of the source. -/
structure LivePosition where
  orderId : String
  entryDate : ℤ
  side : Side
  strike : ℚ
  expiry : String
  tradingSymbol : String
  entryPrice : ℚ
  quantity : ℚ
  initialStop : ℚ
  target1 : ℚ
  trailingStop : ℚ
  finalTarget : ℚ
  status : PosStatus
  currentPrice : Option ℚ
  profit : Option ℚ
deriving DecidableEq

/-- Wall-clock data read by monitorPositions from new Date(): an absolute
day count plus getDay() (0 = Sunday .. 6 = Saturday), getHours(),
getMinutes(). -/
structure TickTime where
  epochDay : ℤ
  weekday : ℕ
  hour : ℕ
  minute : ℕ
deriving DecidableEq

/-- Outcome of one monitoring pass over one position: either an exit order
at a price with a reason (the exitPosition call) or no action. -/
inductive MonitorAction where
  | exitAt (price : ℚ) (reason : ExitReason)
  | hold
deriving DecidableEq

/-- The in-tick status update of monitorPositions: when an active position
reaches target1 its status is set to trailing before the later checks of
the same tick run. -/
def monitorStatusUpdate (pos : LivePosition) (currentPrice : ℚ) : PosStatus :=
  if pos.status = PosStatus.active ∧ pos.target1 ≤ currentPrice then PosStatus.trailing
  else pos.status

/-- Embeds the per-position body of LiveStrategyManager.monitorPositions
(strategy_v2_live.ts lines 304-350): in order, the initial stop-loss check
(active only), the target1 transition to trailing, the trailing-stop check,
the final-target check, and the Friday pre-close check
(getDay() = 5, getHours() >= 15, getMinutes() >= 15). Every exit passes the
current price to exitPosition. The broker price fetch is the currentPrice
argument; no other rule exists in the source (in particular no
holding-duration rule reads entryDate). -/
def monitorStep (pos : LivePosition) (currentPrice : ℚ) (now : TickTime) :
    MonitorAction × PosStatus :=
  if pos.status = PosStatus.active ∧ currentPrice ≤ pos.initialStop then
    (MonitorAction.exitAt currentPrice ExitReason.stop_loss, pos.status)
  else
    let st := monitorStatusUpdate pos currentPrice
    if st = PosStatus.trailing ∧ currentPrice ≤ pos.trailingStop then
      (MonitorAction.exitAt currentPrice ExitReason.trailing_stop, st)
    else if pos.finalTarget ≤ currentPrice then
      (MonitorAction.exitAt currentPrice ExitReason.target, st)
    else if now.weekday = 5 ∧ 15 ≤ now.hour ∧ 15 ≤ now.minute then
      (MonitorAction.exitAt currentPrice ExitReason.friday_exit, st)
    else (MonitorAction.hold, st)

/-- Embeds isNearMarketClose of the configuration module
(src/unnamed/part_003 lines 141-149): true when the configured market end
is at most minutesBefore minutes away (an absolute count of minutes since
midnight, compared as signed integers). -/
def isNearMarketClose (marketEndHour marketEndMinute nowHour nowMinute : ℕ)
    (minutesBefore : ℤ) : Bool :=
  decide (((marketEndHour * 60 + marketEndMinute : ℕ) : ℤ)
    - ((nowHour * 60 + nowMinute : ℕ) : ℤ) ≤ minutesBefore)

/-- Embeds the LiveTradingConfig interface of strategy_v2_live.ts (the api
credentials, consumed only by the broker client, are omitted). -/
structure LiveConfig where
  capital : ℚ
  riskPerTrade : ℚ
  entryBuffer : ℚ
  strikeStep : ℚ
  lotSize : ℚ
  finalRR : ℚ
  enableTrailing : Bool
  maxPositions : ℕ
  debugMode : Bool
deriving DecidableEq

/-- Embeds the trade record written by saveTradeRecord to
live_trades.jsonl, one JSON line per closed position. -/
structure TradeRec where
  entryDate : ℤ
  exitDate : ℤ
  tradingSymbol : String
  side : Side
  strike : ℚ
  expiry : String
  entryPrice : ℚ
  exitPrice : ℚ
  quantity : ℚ
  profit : Option ℚ
  capital : ℚ
  reason : ExitReason
  status : PosStatus
deriving DecidableEq

/-- Embeds the mutable fields of LiveStrategyManager: the positions Map
(an ordered association list keyed by order id), this.capital, the
append-only trade-record sink, and the messages passed to this.log. -/
structure ManagerState where
  positions : List (String × LivePosition)
  capital : ℚ
  trades : List TradeRec
  logs : List String
deriving DecidableEq

/-- JavaScript Map.set on the association list: replace in place when the
key exists, append otherwise. -/
def mapSet (m : List (String × LivePosition)) (k : String) (v : LivePosition) :
    List (String × LivePosition) :=
  if m.lookup k = none then m ++ [(k, v)]
  else m.map fun q => if q.1 = k then (k, v) else q

/-- The this.log helper of LiveStrategyManager: messages are recorded only
when debugMode is set. -/
def logMsg (debugMode : Bool) (st : ManagerState) (m : String) : ManagerState :=
  if debugMode then { st with logs := st.logs ++ [m] } else st

/-- Embeds LiveStrategyManager.getNumLots: floor(capital / 100000) above
300000, otherwise 2 above 100000, otherwise 1. -/
def getNumLots (capital : ℚ) : ℤ :=
  if 300000 < capital then ⌊capital / 100000⌋
  else if 100000 < capital then 2
  else 1

/-- Embeds LiveStrategyManager.findNearestStrike (lines 108-118): ATM =
spot rounded to the nearest configured strike step, one step above for CE
and one step below for PE. -/
def findNearestStrike (strikeStep spotPrice : ℚ) (side : String) : ℚ :=
  let atmStrike : ℚ := (jsRound (spotPrice / strikeStep) : ℚ) * strikeStep
  if side = "CE" then atmStrike + strikeStep else atmStrike - strikeStep

/-- The external data resolved by the awaited broker calls inside
enterPosition before the position is built: the next expiry
(getNextExpiry, as its ISO day key string), the option symbol
(getOptionTradingSymbol), the option last-traded price (getOptionLTP), the
broker order id (placeOrder), and the entry wall-clock day (new Date()). -/
structure EntryCtx where
  expiryStr : String
  tradingSymbol : String
  ltp : ℚ
  orderId : String
  now : ℤ
deriving DecidableEq

/-- Embeds LiveStrategyManager.enterPosition (strategy_v2_live.ts lines
226-294) with the broker calls resolved in ctx: reject (null, state
unchanged, message logged) when the positions Map is already at
maxPositions; otherwise pick CE for long and PE for short, find the
strike, compute entry = max(ltp - entryBuffer, 0.05), derive the four
levels, size the order from getNumLots, build the active position and
store it under its order id. Capital is not touched on entry. -/
def enterPositionStep (cfg : LiveConfig) (st : ManagerState) (sig : Signal)
    (spotPrice : ℚ) (ctx : EntryCtx) : Option LivePosition × ManagerState :=
  if cfg.maxPositions ≤ st.positions.length then
    (none, logMsg cfg.debugMode st "Max positions reached. Skipping entry.")
  else
    let optionType : String := if sig.side = Side.long then "CE" else "PE"
    let strike := findNearestStrike cfg.strikeStep spotPrice optionType
    let entryPrice := max (ctx.ltp - cfg.entryBuffer) (5 / 100)
    let L := computeLevels entryPrice cfg.riskPerTrade cfg.finalRR
    let quantity := (getNumLots st.capital : ℚ) * cfg.lotSize
    let position : LivePosition :=
      { orderId := ctx.orderId
        entryDate := ctx.now
        side := sig.side
        strike := strike
        expiry := ctx.expiryStr
        tradingSymbol := ctx.tradingSymbol
        entryPrice := entryPrice
        quantity := quantity
        initialStop := L.initialStop
        target1 := L.target1
        trailingStop := L.trailingStop
        finalTarget := L.finalTarget
        status := PosStatus.active
        currentPrice := none
        profit := none }
    (some position, { st with positions := mapSet st.positions ctx.orderId position })

/-- The trade record built by saveTradeRecord from the closed position, the
exit price, the reason and the already-updated capital. -/
def mkTradeRec (pos : LivePosition) (exitPrice : ℚ) (reason : ExitReason)
    (capitalAfter : ℚ) (now : ℤ) : TradeRec :=
  { entryDate := pos.entryDate
    exitDate := now
    tradingSymbol := pos.tradingSymbol
    side := pos.side
    strike := pos.strike
    expiry := pos.expiry
    entryPrice := pos.entryPrice
    exitPrice := exitPrice
    quantity := pos.quantity
    profit := pos.profit
    capital := capitalAfter
    reason := reason
    status := pos.status }

/-- Embeds LiveStrategyManager.exitPosition (strategy_v2_live.ts lines
356-394) with the sell order resolved: for an unknown order id the state
is unchanged; otherwise profit = (exitPrice - entryPrice) * quantity with
no sign flip for the short side, capital is increased by the profit once,
the position is deleted from the Map, and exactly one trade record built by
saveTradeRecord is appended. -/
def exitPositionStep (st : ManagerState) (orderId : String) (exitPrice : ℚ)
    (reason : ExitReason) (now : ℤ) : ManagerState :=
  match st.positions.lookup orderId with
  | none => st
  | some pos =>
    let profit := (exitPrice - pos.entryPrice) * pos.quantity
    let pos' := { pos with profit := some profit, status := PosStatus.closed }
    { st with
      capital := st.capital + profit
      positions := st.positions.filter fun q => q.1 ≠ orderId
      trades := st.trades ++ [mkTradeRec pos' exitPrice reason (st.capital + profit) now] }

/-- Constant bar used for concrete evaluations: every price c, indicator
fields as aggregateToDaily initialises them (0). -/
def cbar (c : ℚ) : DailyBar :=
  { date := 0, open' := c, high := c, low := c, close := c,
    sma := 0, bbMid := 0, bbUpper := 0, bbLower := 0, atr := 0 }

/-- Concrete active long position with entry 100 and levels 90 / 130 / 120
/ 180 (risk 10, final multiple 8). -/
def posA : LivePosition :=
  { orderId := "OID1", entryDate := 0, side := Side.long, strike := 24550,
    expiry := "2025-10-14", tradingSymbol := "NIFTY25OCT1424550CE",
    entryPrice := 100, quantity := 75, initialStop := 90, target1 := 130,
    trailingStop := 120, finalTarget := 180, status := PosStatus.active,
    currentPrice := none, profit := none }

/-- Concrete short-side position, otherwise as posA. -/
def posShort : LivePosition :=
  { posA with
    orderId := "OID2"
    side := Side.short
    tradingSymbol := "NIFTY25OCT1424450PE"
    strike := 24450 }

/-- Concrete tick on a Friday at 15:20, seven days after day 0. -/
def fridayTick : TickTime := ⟨7, 5, 15, 20⟩

/-- Concrete tick on a Tuesday at 10:00, seven days after day 0. -/
def tuesdayTick : TickTime := ⟨7, 2, 10, 0⟩

/-- Concrete configuration matching the defaults of runLiveTrading. -/
def cfgW : LiveConfig :=
  { capital := 15000, riskPerTrade := 10, entryBuffer := 10, strikeStep := 50,
    lotSize := 75, finalRR := 8, enableTrailing := true, maxPositions := 3,
    debugMode := true }

/-- The same configuration limited to one concurrent position. -/
def cfgMax1 : LiveConfig := { cfgW with maxPositions := 1 }

/-- Fresh manager state: no positions, starting capital, empty sinks. -/
def stEmpty : ManagerState := { positions := [], capital := 15000, trades := [], logs := [] }

/-- Manager state holding the single short position posShort. -/
def stShort : ManagerState :=
  { positions := [("OID2", posShort)], capital := 15000, trades := [], logs := [] }

/-- Concrete long Bollinger-reversal signal. -/
def sigLong : Signal := ⟨1, 0, Side.long, SignalType.BB_reversal⟩

/-- Concrete short Bollinger-reversal signal. -/
def sigShort : Signal := ⟨1, 0, Side.short, SignalType.BB_reversal⟩

/-- Concrete resolved broker data for one entry. -/
def ctxA : EntryCtx :=
  { expiryStr := "2025-10-14", tradingSymbol := "NIFTY25OCT1424550CE",
    ltp := 100, orderId := "A1", now := 0 }

/-- Concrete resolved broker data for a second entry. -/
def ctxB : EntryCtx := { ctxA with orderId := "B2" }

/-- Concrete call-option chain row at strike 24550 expiring on day 2. -/
def rowCE : OptionRow :=
  { date := some 0, expiry := "2025-10-14", expiryDt := some 2, type := "CE",
    strike := 24550, ltp := 100, low := 80, high := 120, oi := 500,
    oiChange := 0, contracts := 100 }

theorem lookup_filter_ne (m : List (String × LivePosition)) (k : String) :
    (m.filter fun q => q.1 ≠ k).lookup k = none := by
  induction m with
  | nil => rfl
  | cons x xs ih =>
    by_cases h : x.1 = k
    · rw [List.filter_cons_of_neg (by simp [h])]
      exact ih
    · rw [List.filter_cons_of_pos (by simp [h])]
      cases x with
      | mk a b =>
        simp only at h
        have hba : (k == a) = false := by simp [Ne.symm h]
        simp only [List.lookup, hba]
        simpa using ih

theorem mapSet_length (m : List (String × LivePosition)) (k : String) (v : LivePosition) :
    (mapSet m k v).length = m.length ∨ (mapSet m k v).length = m.length + 1 := by
  unfold mapSet
  split
  · right; simp
  · left; simp

/-- C1 (amended): the derived levels satisfy initialStop = entry - R,
trailingStop = entry + 2R, target1 = entry + 3R, finalTarget = entry + kR;
when R > 0 and k > 3 the strict ordering
initialStop < entry < trailingStop < target1 < finalTarget holds; and every
position built by enterPosition carries these same level formulas whatever
the side of its signal (a short signal buys a put, nothing is sign-flipped). -/
theorem C1_entry_levels (entry R k : ℚ) (hR : 0 < R) (hk : 3 < k) :
    ((computeLevels entry R k).initialStop = entry - R
      ∧ (computeLevels entry R k).trailingStop = entry + 2 * R
      ∧ (computeLevels entry R k).target1 = entry + 3 * R
      ∧ (computeLevels entry R k).finalTarget = entry + k * R)
    ∧ ((computeLevels entry R k).initialStop < entry
      ∧ entry < (computeLevels entry R k).trailingStop
      ∧ (computeLevels entry R k).trailingStop < (computeLevels entry R k).target1
      ∧ (computeLevels entry R k).target1 < (computeLevels entry R k).finalTarget)
    ∧ (∀ (cfg : LiveConfig) (st : ManagerState) (sig : Signal) (spot : ℚ)
        (ctx : EntryCtx) (pos : LivePosition),
        (enterPositionStep cfg st sig spot ctx).1 = some pos →
          pos.initialStop = pos.entryPrice - cfg.riskPerTrade
          ∧ pos.trailingStop = pos.entryPrice + cfg.riskPerTrade * 2
          ∧ pos.target1 = pos.entryPrice + cfg.riskPerTrade * 3
          ∧ pos.finalTarget = pos.entryPrice + cfg.riskPerTrade * cfg.finalRR) := by
  refine ⟨⟨by simp only [computeLevels]; try ring, by simp only [computeLevels]; try ring,
    by simp only [computeLevels]; try ring, by simp only [computeLevels]; try ring⟩,
    ⟨by simp only [computeLevels]; linarith, by simp only [computeLevels]; linarith,
     by simp only [computeLevels]; linarith, by simp only [computeLevels]; nlinarith⟩, ?_⟩
  intro cfg st sig spot ctx pos h
  unfold enterPositionStep at h
  split at h
  · exact absurd h (by simp)
  · simp only [Option.some.injEq] at h
    subst h
    simp [computeLevels]

/-- Witness for C1_entry_levels at entry 100, R 10, k 8. -/
theorem C1_entry_levels_witness :
    (0:ℚ) < 10 ∧ (3:ℚ) < 8
    ∧ (computeLevels 100 10 8).initialStop < 100
    ∧ (100:ℚ) < (computeLevels 100 10 8).trailingStop
    ∧ (computeLevels 100 10 8).trailingStop < (computeLevels 100 10 8).target1
    ∧ (computeLevels 100 10 8).target1 < (computeLevels 100 10 8).finalTarget :=
  ⟨by decide, by decide,
    (C1_entry_levels 100 10 8 (by decide) (by decide)).2.1.1,
    (C1_entry_levels 100 10 8 (by decide) (by decide)).2.1.2.1,
    (C1_entry_levels 100 10 8 (by decide) (by decide)).2.1.2.2.1,
    (C1_entry_levels 100 10 8 (by decide) (by decide)).2.1.2.2.2⟩

/-- Counterexample for C1 as stated: with final multiple k = 3 the claimed
strict ordering target1 < finalTarget fails, and for a short-side entry the
claimed mirrored ordering fails, since the position still has
initialStop (80) below entryPrice (90). -/
theorem C1_entry_levels_cex :
    (computeLevels 100 10 3).target1 = 130
    ∧ (computeLevels 100 10 3).finalTarget = 130
    ∧ ¬ (computeLevels 100 10 3).target1 < (computeLevels 100 10 3).finalTarget
    ∧ ((enterPositionStep cfgW stEmpty sigShort 24500 ctxA).1.map
        (fun p => (p.side, p.entryPrice, p.initialStop)))
        = some (Side.short, 90, 80)
    ∧ (80:ℚ) < 90 := by
  refine ⟨by norm_num [computeLevels], by norm_num [computeLevels],
    by norm_num [computeLevels], ?_, by norm_num⟩
  have hmax : max ((100:ℚ) - 10) (5 / 100) = 90 := by
    rw [max_eq_left]; norm_num; norm_num
  simp only [enterPositionStep, cfgW, stEmpty, sigShort, ctxA, computeLevels]
  norm_num [hmax]

/-- C2 (amended): on a backtest bar whose range reaches both the stop level
in force and the final target, exactly one exit fires and it is the final
target: backtestDayStep checks the final target before the stop, so the
trade exits at finalTarget with the target tag, not the stop tag. -/
theorem C2_stop_target_priority (L : Levels) (s : TrailState) (low high : ℚ)
    (_hstop : low ≤ s.currentStop) (htgt : L.finalTarget ≤ high) :
    (backtestDayStep L s low high).1 = some (L.finalTarget, ExitReason.target) := by
  unfold backtestDayStep
  simp [htgt]

/-- Witness for C2_stop_target_priority: entry 100, risk 10, final multiple
8, a bar with low 80 and high 200. -/
theorem C2_stop_target_priority_witness :
    (80:ℚ) ≤ (TrailState.mk false 90).currentStop
    ∧ (Levels.mk 90 130 120 180).finalTarget ≤ (200:ℚ)
    ∧ (backtestDayStep (Levels.mk 90 130 120 180) (TrailState.mk false 90) 80 200).1
        = some ((Levels.mk 90 130 120 180).finalTarget, ExitReason.target) :=
  ⟨by decide, by decide,
    C2_stop_target_priority (Levels.mk 90 130 120 180) (TrailState.mk false 90)
      80 200 (by decide) (by decide)⟩

/-- Counterexample for C2 as stated: the levels of entry 100, R 10, k 8 and
a day-0 bar 80-200 reach both the initial stop (80 <= 90) and the final
target (200 >= 180), yet the backtest exits at the final target with the
target tag, not stop_loss. -/
theorem C2_stop_target_priority_cex :
    computeLevels 100 10 8 = Levels.mk 90 130 120 180
    ∧ (80:ℚ) ≤ 90 ∧ (180:ℚ) ≤ 200
    ∧ (backtestDayStep (Levels.mk 90 130 120 180) (TrailState.mk false 90) 80 200).1
        = some (180, ExitReason.target)
    ∧ ExitReason.target ≠ ExitReason.stop_loss := by
  refine ⟨?_, by decide, by decide, by decide, by decide⟩
  simp only [computeLevels, Levels.mk.injEq]
  norm_num

/-- C3: evaluation of the live monitor at the failing input: posA was
entered on day 0 and is monitored on day 7 (held well beyond three trading
sessions) at a price strictly inside all levels on a Tuesday morning, and
monitorPositions takes no action at all: no holding-duration rule exists in
the live monitor, so no max_holding_period exit ever fires there. -/
theorem C3_no_holding_exit :
    3 ≤ tuesdayTick.epochDay - posA.entryDate
    ∧ monitorStep posA 100 tuesdayTick = (MonitorAction.hold, PosStatus.active) := by
  constructor
  · decide
  · decide

/-- C9 (amended): on a tick where no higher-priority rule fires and the
local time is a Friday with hour >= 15 and minute >= 15, the live monitor
exits the position at the current price with reason friday_exit. -/
theorem C9_friday_exit (pos : LivePosition) (p : ℚ) (t : TickTime)
    (h1 : ¬(pos.status = PosStatus.active ∧ p ≤ pos.initialStop))
    (h2 : ¬(monitorStatusUpdate pos p = PosStatus.trailing ∧ p ≤ pos.trailingStop))
    (h3 : ¬ pos.finalTarget ≤ p)
    (hd : t.weekday = 5) (hh : 15 ≤ t.hour) (hm : 15 ≤ t.minute) :
    monitorStep pos p t
      = (MonitorAction.exitAt p ExitReason.friday_exit, monitorStatusUpdate pos p) := by
  unfold monitorStep
  simp [h1, h2, h3, hd, hh, hm]

/-- Witness for C9_friday_exit: posA at price 100 on a Friday 15:20 tick. -/
theorem C9_friday_exit_witness :
    (¬(posA.status = PosStatus.active ∧ (100:ℚ) ≤ posA.initialStop))
    ∧ (¬(monitorStatusUpdate posA 100 = PosStatus.trailing ∧ (100:ℚ) ≤ posA.trailingStop))
    ∧ (¬ posA.finalTarget ≤ (100:ℚ))
    ∧ fridayTick.weekday = 5 ∧ 15 ≤ fridayTick.hour ∧ 15 ≤ fridayTick.minute
    ∧ monitorStep posA 100 fridayTick
        = (MonitorAction.exitAt 100 ExitReason.friday_exit, monitorStatusUpdate posA 100) :=
  ⟨by decide, by decide, by decide, by decide, by decide, by decide,
    C9_friday_exit posA 100 fridayTick (by decide) (by decide) (by decide)
      (by decide) (by decide) (by decide)⟩

/-- Counterexample for C9 as stated: the Friday pre-close exit carries the
reason friday_exit, not the calendar_exit reason named by the claim. -/
theorem C9_friday_exit_cex :
    monitorStep posA 100 fridayTick
      = (MonitorAction.exitAt 100 ExitReason.friday_exit, PosStatus.active)
    ∧ ExitReason.friday_exit ≠ ExitReason.calendar_exit := by
  constructor
  · decide
  · decide

theorem mapSet_length_le (m : List (String × LivePosition)) (k : String) (v : LivePosition) :
    (mapSet m k v).length ≤ m.length + 1 := by
  rcases mapSet_length m k v with h | h <;> omega

/-- C4 (amended): every exit of a known position increases capital exactly
once by (exitPrice - entryPrice) * quantity with no sign flip for the short
side (the short side holds a bought put), appends exactly one trade record
built by saveTradeRecord, removes the position, and entry never touches
capital or the trade sink. -/
theorem C4_exit_accounting (st : ManagerState) (orderId : String) (exitPrice : ℚ)
    (reason : ExitReason) (now : ℤ) (pos : LivePosition)
    (h : st.positions.lookup orderId = some pos) :
    (exitPositionStep st orderId exitPrice reason now).capital
        = st.capital + (exitPrice - pos.entryPrice) * pos.quantity
    ∧ (exitPositionStep st orderId exitPrice reason now).trades
        = st.trades ++ [mkTradeRec
            { pos with
                profit := some ((exitPrice - pos.entryPrice) * pos.quantity)
                status := PosStatus.closed }
            exitPrice reason (st.capital + (exitPrice - pos.entryPrice) * pos.quantity) now]
    ∧ (exitPositionStep st orderId exitPrice reason now).trades.length = st.trades.length + 1
    ∧ (exitPositionStep st orderId exitPrice reason now).positions.lookup orderId = none
    ∧ (∀ (cfg : LiveConfig) (st2 : ManagerState) (sig : Signal) (spot : ℚ) (ctx : EntryCtx),
        (enterPositionStep cfg st2 sig spot ctx).2.capital = st2.capital
        ∧ (enterPositionStep cfg st2 sig spot ctx).2.trades = st2.trades) := by
  unfold exitPositionStep
  rw [h]
  refine ⟨rfl, rfl, by simp, lookup_filter_ne _ _, ?_⟩
  intro cfg st2 sig spot ctx
  unfold enterPositionStep logMsg
  constructor
  · split
    · split <;> rfl
    · rfl
  · split
    · split <;> rfl
    · rfl

/-- Witness for C4_exit_accounting: the short position posShort exits at
120 after entering at 100 with quantity 75. -/
theorem C4_exit_accounting_witness :
    stShort.positions.lookup "OID2" = some posShort
    ∧ (exitPositionStep stShort "OID2" 120 ExitReason.target 0).capital
        = stShort.capital + ((120:ℚ) - posShort.entryPrice) * posShort.quantity
    ∧ (exitPositionStep stShort "OID2" 120 ExitReason.target 0).trades.length
        = stShort.trades.length + 1
    ∧ (exitPositionStep stShort "OID2" 120 ExitReason.target 0).positions.lookup "OID2"
        = none :=
  ⟨by decide,
    (C4_exit_accounting stShort "OID2" 120 ExitReason.target 0 posShort (by decide)).1,
    (C4_exit_accounting stShort "OID2" 120 ExitReason.target 0 posShort (by decide)).2.2.1,
    (C4_exit_accounting stShort "OID2" 120 ExitReason.target 0 posShort (by decide)).2.2.2.1⟩

/-- Counterexample for C4 as stated: the short position entered at 100 and
exited at 120 books profit (120 - 100) * 75 = 1500, not the sign-flipped
(100 - 120) * 75 = -1500 the claim demands for a short side, and an entry
leaves capital untouched rather than adjusting it once. -/
theorem C4_exit_accounting_cex :
    posShort.side = Side.short
    ∧ (exitPositionStep stShort "OID2" 120 ExitReason.target 0).capital = 16500
    ∧ stShort.capital + ((120:ℚ) - 100) * 75 = 16500
    ∧ stShort.capital + ((100:ℚ) - 120) * 75 = 13500
    ∧ (16500:ℚ) ≠ 13500
    ∧ (enterPositionStep cfgW stEmpty sigLong 24500 ctxA).2.capital = stEmpty.capital := by
  refine ⟨by decide, ?_, ?_, ?_, by norm_num, by decide⟩
  · unfold exitPositionStep
    rw [show List.lookup "OID2" stShort.positions = some posShort from by decide]
    show stShort.capital + (120 - posShort.entryPrice) * posShort.quantity = 16500
    norm_num [stShort, posShort, posA]
  · norm_num [stShort]
  · norm_num [stShort]

/-- C8: when the positions Map is full any entry attempt returns null with
the Map unchanged and the rejection message passed to the logger; an entry
attempt never pushes the Map beyond maxPositions; and concretely, with
maxPositions = 1, two back-to-back signals create exactly one position,
the second being rejected. -/
theorem C8_position_limit (cfg : LiveConfig) (st : ManagerState) (sig : Signal)
    (spot : ℚ) (ctx : EntryCtx) :
    (cfg.maxPositions ≤ st.positions.length →
      (enterPositionStep cfg st sig spot ctx).1 = none
      ∧ (enterPositionStep cfg st sig spot ctx).2.positions = st.positions
      ∧ (enterPositionStep cfg st sig spot ctx).2.logs
          = (if cfg.debugMode then st.logs ++ ["Max positions reached. Skipping entry."]
             else st.logs))
    ∧ (st.positions.length ≤ cfg.maxPositions →
        (enterPositionStep cfg st sig spot ctx).2.positions.length ≤ cfg.maxPositions)
    ∧ ((enterPositionStep cfgMax1 stEmpty sigLong 24500 ctxA).1.isSome = true
      ∧ (enterPositionStep cfgMax1
          (enterPositionStep cfgMax1 stEmpty sigLong 24500 ctxA).2 sigShort 24500 ctxB).1
          = none
      ∧ (enterPositionStep cfgMax1
          (enterPositionStep cfgMax1 stEmpty sigLong 24500 ctxA).2 sigShort 24500 ctxB).2.positions.length
          = 1) := by
  refine ⟨?_, ?_, by decide, by decide, by decide⟩
  · intro h
    unfold enterPositionStep
    rw [if_pos h]
    refine ⟨rfl, ?_, ?_⟩ <;> by_cases hdm : cfg.debugMode = true <;> simp [logMsg, hdm]
  · intro h
    by_cases hfull : cfg.maxPositions ≤ st.positions.length
    · have hpos : (enterPositionStep cfg st sig spot ctx).2.positions = st.positions := by
        unfold enterPositionStep
        rw [if_pos hfull]
        unfold logMsg
        split <;> rfl
      rw [hpos]
      exact h
    · unfold enterPositionStep
      rw [if_neg hfull]
      dsimp only
      exact le_trans (mapSet_length_le _ _ _) (by omega)

/-- Witness for C8_position_limit: after the first entry fills the single
slot, the second attempt is rejected. -/
theorem C8_position_limit_witness :
    cfgMax1.maxPositions
        ≤ (enterPositionStep cfgMax1 stEmpty sigLong 24500 ctxA).2.positions.length
    ∧ (enterPositionStep cfgMax1
        (enterPositionStep cfgMax1 stEmpty sigLong 24500 ctxA).2 sigShort 24500 ctxB).1
        = none :=
  ⟨by decide,
    ((C8_position_limit cfgMax1 (enterPositionStep cfgMax1 stEmpty sigLong 24500 ctxA).2
      sigShort 24500 ctxB).1 (by decide)).1⟩

theorem computeIndicators_length (sqrtQ : ℚ → ℚ) (b s a : ℕ) (daily : List DailyBar) :
    (computeIndicators sqrtQ b s a daily).length = daily.length := by
  unfold computeIndicators
  simp

theorem computeIndicators_getElem? (sqrtQ : ℚ → ℚ) (b s a : ℕ) (daily : List DailyBar)
    (i : ℕ) (d : DailyBar) (h : daily[i]? = some d) :
    (computeIndicators sqrtQ b s a daily)[i]?
      = some { d with
          sma := (ffill 0 (smaArr (daily.map (·.close)) s)).getD i 0
          bbMid := (ffill 0 ((bbArr (daily.map (·.close)) b sqrtQ).map
            (Option.map (·.1)))).getD i 0
          bbUpper := (ffill 0 ((bbArr (daily.map (·.close)) b sqrtQ).map
            (Option.map (·.2.1)))).getD i 0
          bbLower := (ffill 0 ((bbArr (daily.map (·.close)) b sqrtQ).map
            (Option.map (·.2.2)))).getD i 0
          atr := (ffill 0 (atrArr (trueRanges (daily.map (·.high)) (daily.map (·.low))
            (daily.map (·.close))) a)).getD i 0 } := by
  have henum : daily.enum[i]? = some (i, d) := by
    rw [List.getElem?_enum, h]
    rfl
  simp only [computeIndicators]
  rw [List.getElem?_map, henum]
  rfl

/-- C10: computeIndicators returns one output bar per input bar and never
changes the date, open, high, low or close of any bar; only the five
indicator fields are rewritten. -/
theorem C10_indicator_frame (sqrtQ : ℚ → ℚ) (b s a : ℕ) (daily : List DailyBar) (i : ℕ) :
    (computeIndicators sqrtQ b s a daily).length = daily.length
    ∧ ((computeIndicators sqrtQ b s a daily).getD i default).date = (daily.getD i default).date
    ∧ ((computeIndicators sqrtQ b s a daily).getD i default).open' = (daily.getD i default).open'
    ∧ ((computeIndicators sqrtQ b s a daily).getD i default).high = (daily.getD i default).high
    ∧ ((computeIndicators sqrtQ b s a daily).getD i default).low = (daily.getD i default).low
    ∧ ((computeIndicators sqrtQ b s a daily).getD i default).close
        = (daily.getD i default).close := by
  refine ⟨computeIndicators_length sqrtQ b s a daily, ?_⟩
  rcases h : daily[i]? with _ | d
  · have hlen : daily.length ≤ i := List.getElem?_eq_none_iff.mp h
    have hout : (computeIndicators sqrtQ b s a daily)[i]? = none := by
      rw [List.getElem?_eq_none_iff, computeIndicators_length]
      exact hlen
    rw [List.getD_eq_getElem?_getD, List.getD_eq_getElem?_getD, h, hout]
    exact ⟨rfl, rfl, rfl, rfl, rfl⟩
  · rw [List.getD_eq_getElem?_getD, List.getD_eq_getElem?_getD, h,
      computeIndicators_getElem? sqrtQ b s a daily i d h]
    exact ⟨rfl, rfl, rfl, rfl, rfl⟩

theorem ffill_getElem?_some (xs : List (Option ℚ)) (i : ℕ) (v a : ℚ)
    (h : xs[i]? = some (some v)) : (ffill a xs)[i]? = some v := by
  induction xs generalizing i a with
  | nil => simp at h
  | cons x xs ih =>
    cases i with
    | zero =>
      simp only [List.getElem?_cons_zero, Option.some.injEq] at h
      subst h
      simp [ffill]
    | succ n =>
      simp only [List.getElem?_cons_succ] at h
      rw [show ffill a (x :: xs) = x.getD a :: ffill (x.getD a) xs by simp [ffill],
        List.getElem?_cons_succ]
      exact ih n _ h

theorem ffill_getElem?_undef (xs : List (Option ℚ)) (i : ℕ) (a : ℚ)
    (h : ∀ j, j ≤ i → xs[j]? = some none) : (ffill a xs)[i]? = some a := by
  induction xs generalizing i a with
  | nil =>
    have h0 := h 0 (Nat.zero_le _)
    simp at h0
  | cons x xs ih =>
    have h0 := h 0 (Nat.zero_le _)
    simp only [List.getElem?_cons_zero, Option.some.injEq] at h0
    subst h0
    cases i with
    | zero => simp [ffill]
    | succ n =>
      rw [show ffill a ((none : Option ℚ) :: xs)
          = (none : Option ℚ).getD a :: ffill ((none : Option ℚ).getD a) xs by simp [ffill],
        List.getElem?_cons_succ]
      exact ih n a fun j hj => by
        have := h (j + 1) (Nat.succ_le_succ hj)
        simpa using this

theorem smaArr_getElem? (closes : List ℚ) (p i : ℕ) (hi : i < closes.length) :
    (smaArr closes p)[i]?
      = some (if i < p - 1 then none else some (windowSum closes i p / p)) := by
  unfold smaArr
  rw [List.getElem?_map, List.getElem?_range hi]
  rfl

theorem bbArr_getElem? (closes : List ℚ) (p : ℕ) (sqrtQ : ℚ → ℚ) (i : ℕ)
    (hi : i < closes.length) :
    (bbArr closes p sqrtQ)[i]?
      = some (if i < p - 1 then none
          else some (windowSum closes i p / p,
            windowSum closes i p / p + 2 * sqrtQ (windowVarSum closes i p / p),
            windowSum closes i p / p - 2 * sqrtQ (windowVarSum closes i p / p))) := by
  unfold bbArr
  rw [List.getElem?_map, List.getElem?_range hi]
  rfl

theorem atrArr_getElem? (trs : List (Option ℚ)) (p i : ℕ) (hi : i < trs.length) :
    (atrArr trs p)[i]? = some (if i < p then none else some (trWindowSum trs i p / p)) := by
  unfold atrArr
  rw [List.getElem?_map, List.getElem?_range hi]
  rfl

theorem trueRanges_length (hs ls cs : List ℚ) : (trueRanges hs ls cs).length = hs.length := by
  unfold trueRanges
  simp

/-- C6: for positive window lengths and every in-range bar index i, the
indicator engine yields exactly the trailing-window values of the source:
SMA is the trailing mean of the closes once i + 1 reaches smaPeriod and the
0 placeholder before; the Bollinger mid is the trailing bbPeriod mean with
upper and lower bands at mid plus and minus two standard deviations (the
square root of the population variance taken by the abstracted Math.sqrt),
placeholder 0 before; the ATR is the trailing mean of the true ranges once
i reaches atrPeriod, placeholder 0 before; thereafter every defined value
is exactly the last-defined (current-window) value carried by the
forward-fill. -/
theorem C6_indicator_values (sqrtQ : ℚ → ℚ) (bbP smaP atrP : ℕ) (daily : List DailyBar)
    (i : ℕ) (hbb : 1 ≤ bbP) (hsma : 1 ≤ smaP) (_hatr : 1 ≤ atrP) (hi : i < daily.length) :
    (smaP ≤ i + 1 →
      ((computeIndicators sqrtQ bbP smaP atrP daily).getD i default).sma
        = windowSum (daily.map (·.close)) i smaP / smaP)
    ∧ (i + 1 < smaP →
      ((computeIndicators sqrtQ bbP smaP atrP daily).getD i default).sma = 0)
    ∧ (bbP ≤ i + 1 →
      ((computeIndicators sqrtQ bbP smaP atrP daily).getD i default).bbMid
        = windowSum (daily.map (·.close)) i bbP / bbP
      ∧ ((computeIndicators sqrtQ bbP smaP atrP daily).getD i default).bbUpper
        = windowSum (daily.map (·.close)) i bbP / bbP
          + 2 * sqrtQ (windowVarSum (daily.map (·.close)) i bbP / bbP)
      ∧ ((computeIndicators sqrtQ bbP smaP atrP daily).getD i default).bbLower
        = windowSum (daily.map (·.close)) i bbP / bbP
          - 2 * sqrtQ (windowVarSum (daily.map (·.close)) i bbP / bbP))
    ∧ (i + 1 < bbP →
      ((computeIndicators sqrtQ bbP smaP atrP daily).getD i default).bbMid = 0
      ∧ ((computeIndicators sqrtQ bbP smaP atrP daily).getD i default).bbUpper = 0
      ∧ ((computeIndicators sqrtQ bbP smaP atrP daily).getD i default).bbLower = 0)
    ∧ (atrP ≤ i →
      ((computeIndicators sqrtQ bbP smaP atrP daily).getD i default).atr
        = trWindowSum (trueRanges (daily.map (·.high)) (daily.map (·.low))
            (daily.map (·.close))) i atrP / atrP)
    ∧ (i < atrP →
      ((computeIndicators sqrtQ bbP smaP atrP daily).getD i default).atr = 0) := by
  rcases hd : daily[i]? with _ | d
  · exact absurd (List.getElem?_eq_none_iff.mp hd) (by omega)
  have hgetD : ((computeIndicators sqrtQ bbP smaP atrP daily).getD i default)
      = { d with
          sma := (ffill 0 (smaArr (daily.map (·.close)) smaP)).getD i 0
          bbMid := (ffill 0 ((bbArr (daily.map (·.close)) bbP sqrtQ).map
            (Option.map (·.1)))).getD i 0
          bbUpper := (ffill 0 ((bbArr (daily.map (·.close)) bbP sqrtQ).map
            (Option.map (·.2.1)))).getD i 0
          bbLower := (ffill 0 ((bbArr (daily.map (·.close)) bbP sqrtQ).map
            (Option.map (·.2.2)))).getD i 0
          atr := (ffill 0 (atrArr (trueRanges (daily.map (·.high)) (daily.map (·.low))
            (daily.map (·.close))) atrP)).getD i 0 } := by
    rw [List.getD_eq_getElem?_getD, computeIndicators_getElem? sqrtQ bbP smaP atrP daily i d hd]
    rfl
  have hic : i < (daily.map (·.close) : List ℚ).length := by
    rw [List.length_map]
    exact hi
  have hih : i < (daily.map (·.high) : List ℚ).length := by
    rw [List.length_map]
    exact hi
  refine ⟨?_, ?_, ?_, ?_, ?_, ?_⟩
  · intro hp
    rw [hgetD]
    show (ffill 0 (smaArr (daily.map (·.close)) smaP)).getD i 0 = _
    have hsome : (smaArr (daily.map (·.close)) smaP)[i]?
        = some (some (windowSum (daily.map (·.close)) i smaP / smaP)) := by
      rw [smaArr_getElem? _ _ _ hic, if_neg (by omega)]
    rw [List.getD_eq_getElem?_getD, ffill_getElem?_some _ _ _ _ hsome]
    rfl
  · intro hp
    rw [hgetD]
    show (ffill 0 (smaArr (daily.map (·.close)) smaP)).getD i 0 = 0
    rw [List.getD_eq_getElem?_getD, ffill_getElem?_undef _ i 0 (fun j hj => by
      rw [smaArr_getElem? _ _ _ (lt_of_le_of_lt hj hic), if_pos (by omega)])]
    rfl
  · intro hp
    have hsome := bbArr_getElem? (daily.map (·.close)) bbP sqrtQ i hic
    rw [if_neg (by omega : ¬ i < bbP - 1)] at hsome
    rw [hgetD]
    refine ⟨?_, ?_, ?_⟩
    · show (ffill 0 ((bbArr (daily.map (·.close)) bbP sqrtQ).map (Option.map (·.1)))).getD i 0 = _
      rw [List.getD_eq_getElem?_getD, ffill_getElem?_some _ _ _ _ (by
        rw [List.getElem?_map, hsome]
        rfl)]
      rfl
    · show (ffill 0 ((bbArr (daily.map (·.close)) bbP sqrtQ).map (Option.map (·.2.1)))).getD i 0 = _
      rw [List.getD_eq_getElem?_getD, ffill_getElem?_some _ _ _ _ (by
        rw [List.getElem?_map, hsome]
        rfl)]
      rfl
    · show (ffill 0 ((bbArr (daily.map (·.close)) bbP sqrtQ).map (Option.map (·.2.2)))).getD i 0 = _
      rw [List.getD_eq_getElem?_getD, ffill_getElem?_some _ _ _ _ (by
        rw [List.getElem?_map, hsome]
        rfl)]
      rfl
  · intro hp
    rw [hgetD]
    refine ⟨?_, ?_, ?_⟩ <;>
      [show (ffill 0 ((bbArr (daily.map (·.close)) bbP sqrtQ).map (Option.map (·.1)))).getD i 0 = 0;
       show (ffill 0 ((bbArr (daily.map (·.close)) bbP sqrtQ).map (Option.map (·.2.1)))).getD i 0 = 0;
       show (ffill 0 ((bbArr (daily.map (·.close)) bbP sqrtQ).map (Option.map (·.2.2)))).getD i 0 = 0] <;>
    · rw [List.getD_eq_getElem?_getD, ffill_getElem?_undef _ i 0 (fun j hj => by
        rw [List.getElem?_map, bbArr_getElem? _ _ _ _ (lt_of_le_of_lt hj hic),
          if_pos (by omega)]
        rfl)]
      rfl
  · intro hp
    rw [hgetD]
    show (ffill 0 (atrArr (trueRanges (daily.map (·.high)) (daily.map (·.low))
      (daily.map (·.close))) atrP)).getD i 0 = _
    have hit : i < (trueRanges (daily.map (·.high)) (daily.map (·.low))
        (daily.map (·.close))).length := by
      rw [trueRanges_length]
      exact hih
    have hsome : (atrArr (trueRanges (daily.map (·.high)) (daily.map (·.low))
        (daily.map (·.close))) atrP)[i]?
        = some (some (trWindowSum (trueRanges (daily.map (·.high)) (daily.map (·.low))
            (daily.map (·.close))) i atrP / atrP)) := by
      rw [atrArr_getElem? _ _ _ hit, if_neg (by omega)]
    rw [List.getD_eq_getElem?_getD, ffill_getElem?_some _ _ _ _ hsome]
    rfl
  · intro hp
    rw [hgetD]
    show (ffill 0 (atrArr (trueRanges (daily.map (·.high)) (daily.map (·.low))
      (daily.map (·.close))) atrP)).getD i 0 = 0
    rw [List.getD_eq_getElem?_getD, ffill_getElem?_undef _ i 0 (fun j hj => by
      have hjt : j < (trueRanges (daily.map (·.high)) (daily.map (·.low))
          (daily.map (·.close))).length := by
        rw [trueRanges_length]
        exact lt_of_le_of_lt hj hih
      rw [atrArr_getElem? _ _ _ hjt, if_pos (by omega)])]
    rfl

/-- Witness for C6_indicator_values on a two-bar series with all window
lengths 1 at index 1. -/
theorem C6_indicator_values_witness :
    1 ≤ 1 ∧ 1 < ([cbar 100, cbar 110] : List DailyBar).length
    ∧ (1 ≤ 1 + 1 →
        ((computeIndicators id 1 1 1 [cbar 100, cbar 110]).getD 1 default).sma
          = windowSum ([cbar 100, cbar 110].map (·.close)) 1 1 / 1)
    ∧ (1 ≤ 1 →
        ((computeIndicators id 1 1 1 [cbar 100, cbar 110]).getD 1 default).atr
          = trWindowSum (trueRanges ([cbar 100, cbar 110].map (·.high))
              ([cbar 100, cbar 110].map (·.low)) ([cbar 100, cbar 110].map (·.close)))
              1 1 / 1) :=
  ⟨by decide, by decide,
    (C6_indicator_values id 1 1 1 [cbar 100, cbar 110] 1 (by decide) (by decide)
      (by decide) (by decide)).1,
    (C6_indicator_values id 1 1 1 [cbar 100, cbar 110] 1 (by decide) (by decide)
      (by decide) (by decide)).2.2.2.2.1⟩

theorem signalsAt_index (daily : List DailyBar) (i : ℕ) (s : Signal)
    (h : s ∈ signalsAt daily i) : s.index = i := by
  simp only [signalsAt, List.mem_append] at h
  rcases h with (h | h) | h <;> (split_ifs at h <;> simp_all)

theorem mem_signalsAt_bb_long (daily : List DailyBar) (i : ℕ) :
    (⟨i, (daily.getD i default).date, Side.long, SignalType.BB_reversal⟩ : Signal)
      ∈ signalsAt daily i
    ↔ (daily.getD i default).close < (daily.getD i default).bbLower := by
  simp only [signalsAt, List.mem_append]
  split_ifs <;> simp_all

theorem mem_signalsAt_bb_short (daily : List DailyBar) (i : ℕ) :
    (⟨i, (daily.getD i default).date, Side.short, SignalType.BB_reversal⟩ : Signal)
      ∈ signalsAt daily i
    ↔ (¬ (daily.getD i default).close < (daily.getD i default).bbLower
        ∧ (daily.getD i default).bbUpper < (daily.getD i default).close) := by
  simp only [signalsAt, List.mem_append]
  split_ifs <;> simp_all

theorem mem_generateSignals (daily : List DailyBar) (s : Signal) :
    s ∈ generateSignals daily
      ↔ ∃ i, (1 ≤ i ∧ i < daily.length) ∧ s ∈ signalsAt daily i := by
  unfold generateSignals
  rw [List.mem_flatMap]
  constructor
  · rintro ⟨i, hmem, hs⟩
    rw [List.mem_range'_1] at hmem
    exact ⟨i, ⟨hmem.1, by omega⟩, hs⟩
  · rintro ⟨i, ⟨hl, hr⟩, hs⟩
    exact ⟨i, List.mem_range'_1.mpr ⟨hl, by omega⟩, hs⟩

/-- C5 (amended): for every bar index i >= 1 the signal generator emits the
band-reversal long signal exactly when close < bbLower and the
band-reversal short signal exactly when close is not below bbLower and
above bbUpper, evaluated on the stored (forward-filled or placeholder)
indicator fields with no definedness guard. -/
theorem C5_band_reversal (daily : List DailyBar) (i : ℕ) (h1 : 1 ≤ i)
    (hi : i < daily.length) :
    ((⟨i, (daily.getD i default).date, Side.long, SignalType.BB_reversal⟩ : Signal)
        ∈ generateSignals daily
      ↔ (daily.getD i default).close < (daily.getD i default).bbLower)
    ∧ ((⟨i, (daily.getD i default).date, Side.short, SignalType.BB_reversal⟩ : Signal)
        ∈ generateSignals daily
      ↔ (¬ (daily.getD i default).close < (daily.getD i default).bbLower
          ∧ (daily.getD i default).bbUpper < (daily.getD i default).close)) := by
  constructor
  · rw [mem_generateSignals]
    constructor
    · rintro ⟨j, ⟨hj1, hj2⟩, hs⟩
      have hji : j = i := by
        have hidx := signalsAt_index daily j _ hs
        simpa using hidx.symm
      subst hji
      exact (mem_signalsAt_bb_long daily j).mp hs
    · intro hc
      exact ⟨i, ⟨h1, hi⟩, (mem_signalsAt_bb_long daily i).mpr hc⟩
  · rw [mem_generateSignals]
    constructor
    · rintro ⟨j, ⟨hj1, hj2⟩, hs⟩
      have hji : j = i := by
        have hidx := signalsAt_index daily j _ hs
        simpa using hidx.symm
      subst hji
      exact (mem_signalsAt_bb_short daily j).mp hs
    · intro hc
      exact ⟨i, ⟨h1, hi⟩, (mem_signalsAt_bb_short daily i).mpr hc⟩

/-- Witness for C5_band_reversal: a two-bar series whose second bar closes
above its stored upper band emits the short band-reversal signal. -/
theorem C5_band_reversal_witness :
    1 ≤ 1 ∧ 1 < ([cbar 100, cbar 100] : List DailyBar).length
    ∧ ((⟨1, (([cbar 100, cbar 100] : List DailyBar).getD 1 default).date, Side.short,
          SignalType.BB_reversal⟩ : Signal) ∈ generateSignals [cbar 100, cbar 100]
        ↔ (¬ (([cbar 100, cbar 100] : List DailyBar).getD 1 default).close
              < (([cbar 100, cbar 100] : List DailyBar).getD 1 default).bbLower
            ∧ (([cbar 100, cbar 100] : List DailyBar).getD 1 default).bbUpper
              < (([cbar 100, cbar 100] : List DailyBar).getD 1 default).close)) :=
  ⟨by decide, by decide,
    (C5_band_reversal [cbar 100, cbar 100] 1 (by decide) (by decide)).2⟩

/-- Counterexample for C5 as stated: with only two bars of close 100 and a
10-bar Bollinger window, bar 1 has only the 0 placeholder bands (its
indicators are not yet defined, 1 + 1 < 10), yet the generator emits a
short band-reversal signal from it because 100 is above the placeholder
upper band 0. -/
theorem C5_band_reversal_cex :
    (⟨1, 0, Side.short, SignalType.BB_reversal⟩ : Signal)
      ∈ generateSignals (computeIndicators id 10 20 10 [cbar 100, cbar 100])
    ∧ ((computeIndicators id 10 20 10 [cbar 100, cbar 100]).getD 1 default).bbUpper = 0
    ∧ 1 + 1 < 10 := by
  have hd1 : ([cbar 100, cbar 100] : List DailyBar)[1]? = some (cbar 100) := rfl
  have hbar := computeIndicators_getElem? id 10 20 10 [cbar 100, cbar 100] 1 (cbar 100) hd1
  have hjc : ∀ j, j ≤ 1 → j < (([cbar 100, cbar 100] : List DailyBar).map (·.close)).length := by
    intro j hj
    simp only [List.length_map, List.length_cons, List.length_nil]
    omega
  have hsma0 : (ffill 0 (smaArr (([cbar 100, cbar 100] : List DailyBar).map (·.close)) 20)).getD 1 0
      = 0 := by
    rw [List.getD_eq_getElem?_getD, ffill_getElem?_undef _ 1 0 (fun j hj => by
      rw [smaArr_getElem? _ _ _ (hjc j hj), if_pos (by omega)])]
    rfl
  have hmid0 : (ffill 0 ((bbArr (([cbar 100, cbar 100] : List DailyBar).map (·.close)) 10 id).map
      (Option.map (·.1)))).getD 1 0 = 0 := by
    rw [List.getD_eq_getElem?_getD, ffill_getElem?_undef _ 1 0 (fun j hj => by
      rw [List.getElem?_map, bbArr_getElem? _ _ _ _ (hjc j hj), if_pos (by omega)]
      rfl)]
    rfl
  have hup0 : (ffill 0 ((bbArr (([cbar 100, cbar 100] : List DailyBar).map (·.close)) 10 id).map
      (Option.map (·.2.1)))).getD 1 0 = 0 := by
    rw [List.getD_eq_getElem?_getD, ffill_getElem?_undef _ 1 0 (fun j hj => by
      rw [List.getElem?_map, bbArr_getElem? _ _ _ _ (hjc j hj), if_pos (by omega)]
      rfl)]
    rfl
  have hlo0 : (ffill 0 ((bbArr (([cbar 100, cbar 100] : List DailyBar).map (·.close)) 10 id).map
      (Option.map (·.2.2)))).getD 1 0 = 0 := by
    rw [List.getD_eq_getElem?_getD, ffill_getElem?_undef _ 1 0 (fun j hj => by
      rw [List.getElem?_map, bbArr_getElem? _ _ _ _ (hjc j hj), if_pos (by omega)]
      rfl)]
    rfl
  have hatr0 : (ffill 0 (atrArr (trueRanges (([cbar 100, cbar 100] : List DailyBar).map (·.high))
      (([cbar 100, cbar 100] : List DailyBar).map (·.low))
      (([cbar 100, cbar 100] : List DailyBar).map (·.close))) 10)).getD 1 0 = 0 := by
    rw [List.getD_eq_getElem?_getD, ffill_getElem?_undef _ 1 0 (fun j hj => by
      have hjt : j < (trueRanges (([cbar 100, cbar 100] : List DailyBar).map (·.high))
          (([cbar 100, cbar 100] : List DailyBar).map (·.low))
          (([cbar 100, cbar 100] : List DailyBar).map (·.close))).length := by
        rw [trueRanges_length]
        simp only [List.length_map, List.length_cons, List.length_nil]
        omega
      rw [atrArr_getElem? _ _ _ hjt, if_pos (by omega)])]
    rfl
  have hann1 : (computeIndicators id 10 20 10 [cbar 100, cbar 100]).getD 1 default
      = cbar 100 := by
    rw [List.getD_eq_getElem?_getD, hbar]
    show ({ cbar 100 with
      sma := (ffill 0 (smaArr (([cbar 100, cbar 100] : List DailyBar).map (·.close)) 20)).getD 1 0
      bbMid := (ffill 0 ((bbArr (([cbar 100, cbar 100] : List DailyBar).map (·.close)) 10 id).map
        (Option.map (·.1)))).getD 1 0
      bbUpper := (ffill 0 ((bbArr (([cbar 100, cbar 100] : List DailyBar).map (·.close)) 10 id).map
        (Option.map (·.2.1)))).getD 1 0
      bbLower := (ffill 0 ((bbArr (([cbar 100, cbar 100] : List DailyBar).map (·.close)) 10 id).map
        (Option.map (·.2.2)))).getD 1 0
      atr := (ffill 0 (atrArr (trueRanges (([cbar 100, cbar 100] : List DailyBar).map (·.high))
        (([cbar 100, cbar 100] : List DailyBar).map (·.low))
        (([cbar 100, cbar 100] : List DailyBar).map (·.close))) 10)).getD 1 0 } : DailyBar)
      = cbar 100
    rw [hsma0, hmid0, hup0, hlo0, hatr0]
    rfl
  refine ⟨?_, ?_, by omega⟩
  · rw [mem_generateSignals]
    refine ⟨1, ⟨le_refl 1, ?_⟩, ?_⟩
    · rw [computeIndicators_length]
      simp
    · have hmem := mem_signalsAt_bb_short (computeIndicators id 10 20 10 [cbar 100, cbar 100]) 1
      rw [hann1] at hmem
      exact hmem.mpr (by decide)
  · rw [hann1]
    rfl

theorem rankLE_iff (a b : OptionRow) :
    rankLE a b = true
      ↔ (a.expiryDt.getD 0 < b.expiryDt.getD 0
        ∨ (a.expiryDt.getD 0 = b.expiryDt.getD 0
          ∧ (b.oi < a.oi ∨ (a.oi = b.oi ∧ b.contracts ≤ a.contracts)))) := by
  unfold rankLE
  by_cases h1 : a.expiryDt.getD 0 = b.expiryDt.getD 0
  · by_cases h2 : a.oi = b.oi
    · rw [if_neg (by simp [h1]), if_neg (by simp [h2])]
      simp [h1, h2]
    · rw [if_neg (by simp [h1]), if_pos (by simp [h2])]
      simp [h1, h2]
  · rw [if_pos (by simp [h1])]
    simp [h1]

theorem rankLE_total (a b : OptionRow) : rankLE a b = true ∨ rankLE b a = true := by
  rw [rankLE_iff, rankLE_iff]
  rcases lt_trichotomy (a.expiryDt.getD 0) (b.expiryDt.getD 0) with h | h | h
  · exact Or.inl (Or.inl h)
  · rcases lt_trichotomy a.oi b.oi with ho | ho | ho
    · exact Or.inr (Or.inr ⟨h.symm, Or.inl ho⟩)
    · rcases le_total b.contracts a.contracts with hc | hc
      · exact Or.inl (Or.inr ⟨h, Or.inr ⟨ho, hc⟩⟩)
      · exact Or.inr (Or.inr ⟨h.symm, Or.inr ⟨ho.symm, hc⟩⟩)
    · exact Or.inl (Or.inr ⟨h, Or.inl ho⟩)
  · exact Or.inr (Or.inl h)

theorem rankLE_trans (a b c : OptionRow) (h1 : rankLE a b = true) (h2 : rankLE b c = true) :
    rankLE a c = true := by
  rw [rankLE_iff] at h1 h2 ⊢
  rcases h1 with h1 | ⟨he1, h1⟩ <;> rcases h2 with h2 | ⟨he2, h2⟩
  · exact Or.inl (lt_trans h1 h2)
  · exact Or.inl (he2 ▸ h1)
  · exact Or.inl (he1 ▸ h2)
  · refine Or.inr ⟨he1.trans he2, ?_⟩
    rcases h1 with h1 | ⟨ho1, h1⟩ <;> rcases h2 with h2 | ⟨ho2, h2⟩
    · exact Or.inl (lt_trans h2 h1)
    · exact Or.inl (ho2 ▸ h1)
    · exact Or.inl (ho1 ▸ h2)
    · exact Or.inr ⟨ho1.trans ho2, le_trans h2 h1⟩

theorem mergeSort_head?_min (l : List OptionRow) (r : OptionRow)
    (h : (l.mergeSort rankLE).head? = some r) :
    r ∈ l ∧ ∀ s ∈ l, rankLE r s = true := by
  have hperm := List.mergeSort_perm l rankLE
  have hsorted := @List.sorted_mergeSort OptionRow rankLE
    (fun a b c => rankLE_trans a b c)
    (fun a b => by rcases rankLE_total a b with ht | ht <;> simp [ht]) l
  rcases hms : l.mergeSort rankLE with _ | ⟨x, xs⟩
  · rw [hms] at h
    simp at h
  · rw [hms] at h
    simp only [List.head?_cons, Option.some.injEq] at h
    rw [hms] at hperm hsorted
    subst h
    constructor
    · exact hperm.mem_iff.mp (List.mem_cons_self _ _)
    · intro s hs
      have hsmem : s ∈ x :: xs := hperm.mem_iff.mpr hs
      rcases List.mem_cons.mp hsmem with hsx | htail
      · subst hsx
        rcases rankLE_total s s with ht | ht <;> exact ht
      · exact (List.pairwise_cons.mp hsorted).1 s htail

theorem jsRound_bounds (x : ℚ) :
    x - 1 / 2 < (jsRound x : ℚ) ∧ (jsRound x : ℚ) ≤ x + 1 / 2 := by
  unfold jsRound
  constructor
  · have hlt := Int.lt_floor_add_one (x + 1 / 2)
    push_cast at hlt ⊢
    linarith
  · have hle := Int.floor_le (x + 1 / 2)
    push_cast at hle ⊢
    linarith

/-- C7: the selector rounds the spot to the nearest strike step (the ATM
strike lies within half a step of spot), targets one step above the ATM
with a call for long and one step below with a put for short, keeps only
exact strike-and-kind matches whose expiry is valid and not before the
snapshot date, and returns none exactly when no candidate survives,
otherwise a survivor that the comparator (expiry ascending, open interest
descending, contract count descending) ranks at or before every survivor. -/
theorem C7_contract_selection (side : Side) (spot : ℚ) (snapshot : List OptionRow) :
    (spot - STRIKE_STEP / 2 < (jsRound (spot / STRIKE_STEP) : ℚ) * STRIKE_STEP
      ∧ (jsRound (spot / STRIKE_STEP) : ℚ) * STRIKE_STEP ≤ spot + STRIKE_STEP / 2)
    ∧ selectTargetStrike Side.long spot
        = (jsRound (spot / STRIKE_STEP) : ℚ) * STRIKE_STEP + STRIKE_STEP
    ∧ selectTargetStrike Side.short spot
        = (jsRound (spot / STRIKE_STEP) : ℚ) * STRIKE_STEP - STRIKE_STEP
    ∧ (selectContract snapshot side spot = none
        ↔ contractSurvivors snapshot side spot = [])
    ∧ (∀ r, selectContract snapshot side spot = some r →
        r ∈ contractSurvivors snapshot side spot
        ∧ ∀ s ∈ contractSurvivors snapshot side spot, rankLE r s = true) := by
  have hb := jsRound_bounds (spot / STRIKE_STEP)
  have hy : spot / STRIKE_STEP * STRIKE_STEP = spot :=
    div_mul_cancel₀ _ (by norm_num [STRIKE_STEP])
  have hstep : (STRIKE_STEP : ℚ) = 50 := rfl
  rw [hstep] at hb hy
  refine ⟨⟨?_, ?_⟩, ?_, ?_, ?_, ?_⟩
  · rw [hstep]
    nlinarith [hb.1]
  · rw [hstep]
    nlinarith [hb.2]
  · simp [selectTargetStrike]
  · simp [selectTargetStrike]
  · simp only [selectContract, contractSurvivors]
    by_cases h1 : selectCandidates snapshot side spot = []
    · rw [if_pos h1, h1]
      simp
    · rw [if_neg h1]
      generalize (selectCandidates snapshot side spot).filter
        (fun row => expiryNotBefore row.expiryDt ((snapshot.head?.map (·.date)).getD none)) = Ls
      by_cases h2 : Ls = []
      · rw [if_pos h2, h2]
        simp
      · rw [if_neg h2]
        constructor
        · intro hh
          have hnil := List.head?_eq_none_iff.mp hh
          have hp := (List.mergeSort_perm Ls rankLE).symm
          rw [hnil] at hp
          exact hp.eq_nil
        · intro hh
          exact absurd hh h2
  · intro r hr
    simp only [selectContract] at hr
    by_cases h1 : selectCandidates snapshot side spot = []
    · rw [if_pos h1] at hr
      simp at hr
    · rw [if_neg h1] at hr
      by_cases h2 : (selectCandidates snapshot side spot).filter
          (fun row => expiryNotBefore row.expiryDt ((snapshot.head?.map (·.date)).getD none))
          = []
      · rw [if_pos h2] at hr
        simp at hr
      · rw [if_neg h2] at hr
        have hmin := mergeSort_head?_min _ r hr
        simp only [contractSurvivors]
        exact hmin

/-- Witness for C7_contract_selection: a one-row snapshot holding the CE
contract at strike 24550 is selected for a long signal at spot 24500. -/
theorem C7_contract_selection_witness :
    selectContract [rowCE] Side.long 24500 = some rowCE
    ∧ rowCE ∈ contractSurvivors [rowCE] Side.long 24500
    ∧ ∀ s ∈ contractSurvivors [rowCE] Side.long 24500, rankLE rowCE s = true := by
  have hjr : jsRound (24500 / STRIKE_STEP) = 490 := by
    unfold jsRound
    rw [Int.floor_eq_iff]
    constructor <;> norm_num [STRIKE_STEP]
  have hts : selectTargetStrike Side.long 24500 = 24550 := by
    unfold selectTargetStrike
    rw [hjr]
    norm_num [STRIKE_STEP]
  have hc : selectCandidates [rowCE] Side.long 24500 = [rowCE] := by
    unfold selectCandidates
    simp [hts, rowCE]
  have hsurv : contractSurvivors [rowCE] Side.long 24500 = [rowCE] := by
    unfold contractSurvivors
    rw [hc]
    simp [rowCE, expiryNotBefore]
  have hsel : selectContract [rowCE] Side.long 24500 = some rowCE := by
    simp only [selectContract]
    rw [hc]
    have hfil : ([rowCE].filter fun row =>
        expiryNotBefore row.expiryDt ((([rowCE] : List OptionRow).head?.map (·.date)).getD none))
        = [rowCE] := by
      simp [rowCE, expiryNotBefore]
    rw [if_neg (by simp), hfil, if_neg (by simp)]
    have hms := List.mergeSort_perm [rowCE] rankLE
    rw [List.perm_singleton] at hms
    rw [hms]
    rfl
  exact ⟨hsel,
    ((C7_contract_selection Side.long 24500 [rowCE]).2.2.2.2 rowCE hsel).1,
    ((C7_contract_selection Side.long 24500 [rowCE]).2.2.2.2 rowCE hsel).2⟩
